import Mathlib

/-!
Verification of the next-word-prediction transformer module
(`src/modelling/transformer.py`): a shallow embedding of its learning-rate
schedule, positional encoding, masking, loss masking, training loop
checkpointing, and autoregressive generation, together with theorems that
settle the specification claims.

Conventions of the embedding:
  - Python floats are modelled as real numbers `ℝ` where transcendental
    functions (`cos`, `sin`, `exp`, `log`) are involved, and as rationals
    `ℚ` where only field arithmetic and comparisons occur.
  - A Python `ZeroDivisionError` (or `NameError`) is modelled by `Option`
    (`none` = the exception) or by `Except String`.
  - External collaborators (the data loader, the early-stopping predicate
    from `.utils`, the categorical sampler and the forward pass) appear as
    explicit function parameters, universally quantified in the theorems.
-/

set_option maxHeartbeats 1000000

/-- Embedding of `warmup_schedule(step, warmup_steps, max_steps)`
(transformer.py lines 113-118).  The source computes
`lr_factor = 0.5 * (1 + cos(pi * step / max_steps))` and then, when
`step <= warmup_steps`, multiplies by `step / warmup_steps`.  A Python
`ZeroDivisionError` (raised when `max_steps = 0`, or when the warm-up
branch is taken with `warmup_steps = 0`) is modelled as `none`. -/
noncomputable def warmup_schedule (step warmup_steps max_steps : ℕ) : Option ℝ :=
  if max_steps = 0 then none
  else
    let lr_factor : ℝ := 0.5 * (1 + Real.cos (Real.pi * step / max_steps))
    if step ≤ warmup_steps then
      if warmup_steps = 0 then none
      else some (lr_factor * ((step : ℝ) / warmup_steps))
    else some lr_factor

/-- The learning-rate factor exactly as the specification writes it
(spec section 4.4): `factor(s) = 0.5 * (1 + cos(pi * s / max_steps))`,
additionally multiplied by `s / warmup_steps` when `s <= warmup_steps`. -/
noncomputable def spec_lr_factor (s w m : ℕ) : ℝ :=
  (0.5 * (1 + Real.cos (Real.pi * s / m))) * (if s ≤ w then (s : ℝ) / w else 1)

/-- Probability that the categorical distribution built from raw `logits`
assigns to class `i`: `softmax(logits) i = exp(logits i) / sum_j exp(logits j)`.
This is the distribution `torch.distributions.Categorical(logits=...)`
samples from (transformer.py line 244). -/
noncomputable def softmaxProb (z : List ℝ) (i : ℕ) : ℝ :=
  Real.exp (z.getD i 0) / (z.map Real.exp).sum

/-- The logits actually handed to the sampler by `generate`
(transformer.py line 244): `temperature * token_logits[0, -1]`, i.e. the
final-position logits multiplied elementwise by the temperature. -/
def scale_logits (temperature : ℝ) (z : List ℝ) : List ℝ :=
  z.map (fun v => temperature * v)

/-- Embedding of `div_term` from `PositionalEncoding.__init__`
(transformer.py line 97): the entry of
`exp(arange(0, size_embed, 2) * (-log(10000.0) / size_embed))` whose
`arange` value is `2 * i`. -/
noncomputable def div_term (size_embed i : ℕ) : ℝ :=
  Real.exp (((2 * i : ℕ) : ℝ) * (-Real.log 10000 / size_embed))

/-- Embedding of the positional table built at construction of
`PositionalEncoding` (transformer.py lines 96-101): entry at position `p`
and embedding dimension `d`.  Even dimensions `d = 2i` hold
`sin(p * div_term i)`, odd dimensions `d = 2i + 1` hold
`cos(p * div_term i)`.  The table is a pure function of the embedding size
and the indices, mirroring that the source computes it once from
constructor arguments and registers it as a non-trainable buffer. -/
noncomputable def pos_encoding (size_embed p d : ℕ) : ℝ :=
  if d % 2 = 0 then Real.sin ((p : ℝ) * div_term size_embed (d / 2))
  else Real.cos ((p : ℝ) * div_term size_embed (d / 2))

/-- Map over a list with access to the element index, starting the index
count at `n`.  Used to embed operations that torch defines entrywise. -/
def idxMap {α β : Type} (f : ℕ → α → β) : ℕ → List α → List β
  | _, [] => []
  | n, a :: as => f n a :: idxMap f (n + 1) as

/-- Embedding of `torch.ones(r, c)`: an `r × c` matrix of ones.  The
values are exact integers, so they are modelled in `ℤ`. -/
def ones2 (r c : ℕ) : List (List ℤ) :=
  List.replicate r (List.replicate c 1)

/-- Embedding of `torch.ones(k, r, c)`: `k` copies of the `r × c` ones
matrix (transformer.py line 83 builds
`ones(x.size(0) * n_heads, x.size(1), x.size(1))`). -/
def ones3 (k r c : ℕ) : List (List (List ℤ)) :=
  List.replicate k (ones2 r c)

/-- Embedding of `torch.tril` on a 2-D matrix: entry `(i, j)` is kept when
`j ≤ i` and zeroed when `j > i`. -/
def tril (m : List (List ℤ)) : List (List ℤ) :=
  idxMap (fun i row => idxMap (fun j v => if j ≤ i then v else 0) 0 row) 0 m

/-- Embedding of the elementwise comparison `(m == 0)` on a 2-D integer
matrix, producing a boolean matrix. -/
def bool_eq_zero (m : List (List ℤ)) : List (List Bool) :=
  m.map (fun row => row.map (fun v => decide (v = 0)))

/-- Embedding of the causal-mask construction in
`NextWordPredictionTransformer._make_mask` (transformer.py lines 83-84):
`causal_mask = (tril(ones(batch * n_heads, L, L)) == 0)`, with `torch.tril`
applied slice by slice.  `true` marks a forbidden position pair. -/
def make_causal_mask (batch n_heads seq_len : ℕ) : List (List (List Bool)) :=
  (ones3 (batch * n_heads) seq_len seq_len).map (fun s => bool_eq_zero (tril s))

/-- Embedding of `padding_mask = (x == PAD_TOKEN_IDX)`
(transformer.py line 85). -/
def padding_mask (pad : ℕ) (x : List (List ℕ)) : List (List Bool) :=
  x.map (fun row => row.map (fun t => decide (t = pad)))

/-- Embedding of `NextWordPredictionTransformer._make_mask`
(transformer.py lines 81-86): given the padding-token index, the number of
attention heads and an input batch `x` of shape `(batch, seq_len)`, return
the causal mask of shape `(batch * n_heads, seq_len, seq_len)` and the
padding mask.  `x.size(1)` is the common row length of the rectangular
batch, read off from its first row. -/
def make_mask (pad n_heads : ℕ) (x : List (List ℕ)) :
    List (List (List Bool)) × List (List Bool) :=
  (make_causal_mask x.length n_heads (x.headD []).length, padding_mask pad x)

/-- Entry `(k, i, j)` of a boolean tensor of shape `(K, I, J)`, with
`false` as the out-of-range default. -/
def entry3 (m : List (List (List Bool))) (k i j : ℕ) : Bool :=
  ((m.getD k []).getD i []).getD j false

/-- The `best_checkpoint` dictionary built by `train`
(transformer.py lines 207-211): a snapshot of the model parameters, the
validation loss of the epoch, and the epoch index.  Model parameters are
abstracted as a list of rationals. -/
structure Checkpoint where
  state_dict : List ℚ
  loss : ℚ
  epoch : ℕ
  deriving DecidableEq

/-- The mutable state threaded through the epoch loop of `train`: the
current model parameters, the per-epoch train and validation loss
histories (in epoch order, mirroring the insertion-ordered dicts
`train_losses` and `val_losses`), and the retained best checkpoint
(`none` while the Python name `best_checkpoint` is still unbound). -/
structure TrainLoopState where
  params : List ℚ
  train_losses : List ℚ
  val_losses : List ℚ
  best : Option Checkpoint
  deriving DecidableEq

/-- Binary minimum on `ℚ`, written out so that it evaluates by kernel
reduction. -/
def rat_min (a b : ℚ) : ℚ := if a ≤ b then a else b

/-- Python `min` over the values of a non-empty dict, in insertion order.
The `[]` case is junk (Python would raise); `train` only applies it to
non-empty histories. -/
def list_min : List ℚ → ℚ
  | [] => 0
  | x :: xs => xs.foldl rat_min x

/-- One iteration of the epoch loop of `train`
(transformer.py lines 186-211), with the whole body of an epoch (the batch
loop of `_train_step` calls and the `_val_step` loop) abstracted as a
collaborator `re` mapping the epoch index and the incoming parameters to
`(parameters after the epoch, mean train loss, mean validation loss)`.
After appending the two losses to the histories, the checkpoint decision
re-reads the source condition literally:
`epoch == 1 or val_losses[epoch] < min(val_losses.values())`, where the
minimum ranges over the history INCLUDING the epoch just appended. -/
def epoch_update (re : ℕ → List ℚ → List ℚ × ℚ × ℚ) (epoch : ℕ)
    (st : TrainLoopState) : TrainLoopState :=
  let r := re epoch st.params
  let vl := st.val_losses ++ [r.2.2]
  ⟨r.1, st.train_losses ++ [r.2.1], vl,
    if epoch = 1 ∨ r.2.2 < list_min vl then some ⟨r.1, r.2.2, epoch⟩ else st.best⟩

/-- The epoch loop `for epoch in range(1, n_epochs + 1)` of `train`, with
the early-stopping predicate `_early_stop` (external code from `.utils`)
abstracted as a collaborator `es` over the validation-loss history; when
it fires the loop breaks immediately, as in the source.  The first
argument counts the remaining epochs, the second is the current epoch
index. -/
def train_go (re : ℕ → List ℚ → List ℚ × ℚ × ℚ) (es : List ℚ → Bool) :
    ℕ → ℕ → TrainLoopState → TrainLoopState
  | 0, _, st => st
  | k + 1, epoch, st =>
    let st1 := epoch_update re epoch st
    if es st1.val_losses then st1 else train_go re es k (epoch + 1) st1

/-- Embedding of `train` (transformer.py lines 158-221): run the epoch
loop from epoch 1 and then FINALIZE by loading the best checkpoint back
into the model (`model.load_state_dict(best_checkpoint["state_dict"])`).
The result carries the restored model parameters together with the
returned train/validation loss histories.  If the loop never ran, the
Python name `best_checkpoint` is unbound and line 219 raises a
`NameError`, modelled as `Except.error`. -/
def train (re : ℕ → List ℚ → List ℚ × ℚ × ℚ) (es : List ℚ → Bool)
    (n_epochs : ℕ) (init_params : List ℚ) :
    Except String (List ℚ × List ℚ × List ℚ) :=
  let st := train_go re es n_epochs 1 ⟨init_params, [], [], none⟩
  match st.best with
  | none => Except.error "NameError: name best_checkpoint is not defined"
  | some c => Except.ok (c.state_dict, st.train_losses, st.val_losses)

/-- A concrete epoch collaborator for evaluating `train`: epoch `e` leaves
the model at parameters `[e]`, reports train loss `e`, and validation
loss 2 at epoch 1 and 1 afterwards (so the validation loss strictly
improves after the first epoch). -/
def epoch_run_const : ℕ → List ℚ → List ℚ × ℚ × ℚ :=
  fun e _ => ([(e : ℚ)], (e : ℚ), if e = 1 then 2 else 1)

/-- A concrete early-stopping collaborator that never fires. -/
def no_early_stop : List ℚ → Bool := fun _ => false

/-- Per-position cross-entropy term: the negative log of the softmax
probability the logits row assigns to the target class. -/
noncomputable def ce_term (logits : List ℝ) (t : ℕ) : ℝ :=
  -Real.log (softmaxProb logits t)

/-- Modelled from the spec: the loss function configured at
transformer.py line 174, `CrossEntropyLoss(ignore_index=PAD_TOKEN_IDX)`,
is external library code (the repository only configures it), so its
semantics follow the spec and the library contract: cross-entropy over
vocabulary logits vs. target tokens, "ignoring positions where the target
equals PAD", averaged over the non-ignored positions.  `preds` is the
per-position list of vocabulary logits rows and `targets` the
per-position target tokens. -/
noncomputable def masked_ce_loss (pad : ℕ) (preds : List (List ℝ))
    (targets : List ℕ) : ℝ :=
  (((targets.zip preds).filter (fun pt => pt.1 != pad)).map
      (fun pt => ce_term pt.2 pt.1)).sum /
    ((targets.zip preds).filter (fun pt => pt.1 != pad)).length

/-- The observable state of the torch model object as `generate` touches
it: the values of its parameter tensors (abstracted as a list of reals)
and the training-mode flag toggled by `model.train()` / `model.eval()`. -/
structure ModelState where
  params : List ℝ
  training : Bool

/-- One iteration of the generation loop (transformer.py lines 241-245):
run the forward pass `fwd` of the model parameters on the token sequence
so far, scale the final-position logits by the temperature
(`temperature * token_logits[0, -1]`), draw one token from the seeded
categorical sampler (which consumes and returns the global RNG state),
and append it to the sequence. -/
def generate_step (fwd : List ℝ → List ℕ → List ℝ)
    (sample : List ℝ → ℕ → ℕ × ℕ) (temperature : ℝ) (params : List ℝ)
    (sg : List ℕ × ℕ) : List ℕ × ℕ :=
  let r := sample (scale_logits temperature (fwd params sg.1)) sg.2
  (sg.1 ++ [r.1], r.2)

/-- Embedding of `generate` (transformer.py lines 224-245) at the token
level.  The forward pass `fwd` and the categorical sampler `sample` are
external collaborators; the global torch RNG is threaded explicitly as a
state of type `ℕ`.  `generate` begins with `manual_seed(random_seed)`,
which overwrites whatever ambient RNG state `rng0` the process had, then
switches the model to evaluation mode (`model.eval()`), runs
`output_length` sampling iterations from the prompt tokens, and returns
the newly generated tokens (`token_sequence[len(prompt_tokens):]`)
together with the final model state.  Detokenization and text formatting
of the result are external, deterministic functions of these tokens. -/
def generate (fwd : List ℝ → List ℕ → List ℝ) (sample : List ℝ → ℕ → ℕ × ℕ)
    (prompt_tokens : List ℕ) (output_length : ℕ) (temperature : ℝ)
    (random_seed : ℕ) (_rng0 : ℕ) (model : ModelState) : List ℕ × ModelState :=
  let rng := random_seed
  let m : ModelState := ⟨model.params, false⟩
  let r := (generate_step fwd sample temperature m.params)^[output_length]
    (prompt_tokens, rng)
  (r.1.drop prompt_tokens.length, m)

/-- Claim C3 counterexample: the claim states that when `warmup_steps = 0`
the multiplicative warm-up branch is skipped and no division by zero is
raised; but at `step = 0, warmup_steps = 0` the source takes the branch
(`0 <= 0`) and evaluates `0 / 0`, raising `ZeroDivisionError` (modelled as
`none`, not a pure-cosine `some` value). -/
theorem warmup_schedule_div_zero : warmup_schedule 0 0 10 = none := by
  simp [warmup_schedule]

/-- Claim C3 (amended): `warmup_schedule` raises no division by zero
whenever `warmup_steps ≥ 1` (for any step and `max_steps ≥ 1`); and when
`warmup_steps = 0` the warm-up branch is skipped only for `step ≥ 1`, in
which case the factor is the pure cosine term.  (At `step = 0` with
`warmup_steps = 0` the branch is taken and division by zero is raised.) -/
theorem warmup_schedule_total_amended (s w m : ℕ) (hm : 1 ≤ m) :
    (1 ≤ w → (warmup_schedule s w m).isSome = true) ∧
    (w = 0 → 1 ≤ s → warmup_schedule s w m =
      some (0.5 * (1 + Real.cos (Real.pi * s / m)))) := by
  constructor
  · intro hw
    have hm0 : m ≠ 0 := by omega
    have hw0 : w ≠ 0 := by omega
    simp only [warmup_schedule, hm0, if_false]
    split
    · simp [hw0]
    · simp
  · intro hw hs
    have hm0 : m ≠ 0 := by omega
    have hbranch : ¬ (s ≤ w) := by omega
    simp [warmup_schedule, hm0, hbranch]

/-- Claim C3 witness: the amended totality theorem applied at the concrete
input `step = 5, warmup_steps = 3, max_steps = 10`. -/
theorem warmup_schedule_total_amended_witness :
    1 ≤ 10 ∧ (warmup_schedule 5 3 10).isSome = true :=
  ⟨by norm_num, (warmup_schedule_total_amended 5 3 10 (by norm_num)).1 (by norm_num)⟩

/-- Claim C7 counterexample: the claimed monotonicity of the factor on
`[0, warmup_steps]` fails.  With `warmup_steps = max_steps = 2` the factor
at step 1 is `1/4` while at step 2 it is `0`, so the factor strictly
decreases between two steps inside the warm-up window. -/
theorem warmup_schedule_not_monotone :
    warmup_schedule 1 2 2 = some (1 / 4) ∧
    warmup_schedule 2 2 2 = some 0 ∧ ¬ ((1 : ℝ) / 4 ≤ 0) := by
  refine ⟨?_, ?_, by norm_num⟩
  · have harg : Real.pi * (1 : ℕ) / (2 : ℕ) = Real.pi / 2 := by
      push_cast; ring
    simp only [warmup_schedule]
    norm_num [harg, Real.cos_pi_div_two]
  · have harg : Real.pi * (2 : ℕ) / (2 : ℕ) = Real.pi := by
      push_cast; ring
    simp only [warmup_schedule]
    norm_num [harg, Real.cos_pi]

/-- Claim C7 (amended): `warmup_schedule(s)` equals the specification
formula `0.5 * (1 + cos(pi * s / max_steps))`, additionally multiplied by
`s / warmup_steps` when `s <= warmup_steps` (for `warmup_steps ≥ 1` and
`max_steps ≥ 1`), and when warm-up is active the factor at step 0 is
exactly 0.  The monotonicity clause of the original claim is dropped: the
factor is not monotonically non-decreasing on `[0, warmup_steps]` in
general. -/
theorem warmup_schedule_formula (s w m : ℕ) (hw : 1 ≤ w) (hm : 1 ≤ m) :
    warmup_schedule s w m = some (spec_lr_factor s w m) ∧
    warmup_schedule 0 w m = some 0 := by
  have hm0 : m ≠ 0 := by omega
  have hw0 : w ≠ 0 := by omega
  constructor
  · simp only [warmup_schedule, spec_lr_factor, hm0, if_false]
    split
    · simp [hw0]
    · simp
  · have hbranch : (0 : ℕ) ≤ w := Nat.zero_le w
    simp [warmup_schedule, hm0, hw0, hbranch]

/-- Claim C7 witness: the amended formula theorem applied at the concrete
input `s = 3, warmup_steps = 2, max_steps = 10`. -/
theorem warmup_schedule_formula_witness :
    warmup_schedule 3 2 10 = some (spec_lr_factor 3 2 10) ∧
    warmup_schedule 0 2 10 = some 0 :=
  warmup_schedule_formula 3 2 10 (by norm_num) (by norm_num)

/-- Claim C2 (code bug evidence): `generate` multiplies the final-position
logits by the temperature (`temperature * token_logits[0, -1]`), so a
HIGHER temperature makes the categorical sampling distribution SHARPER,
not flatter.  At logits `[0, 1]`, raising the temperature from 1 to 2
raises the top-token probability from `e / (1 + e)` to `e^2 / (1 + e^2)`,
and that probability already exceeds the uniform value `1/2`, so the
distribution moves away from uniform as temperature grows — contradicting
the claim that higher temperature flattens it. -/
theorem temperature_scaling_sharpens :
    softmaxProb (scale_logits 1 [0, 1]) 1 < softmaxProb (scale_logits 2 [0, 1]) 1 ∧
    1 / 2 < softmaxProb (scale_logits 1 [0, 1]) 1 := by
  have hexp1 : (1 : ℝ) < Real.exp 1 := by
    have h := Real.add_one_le_exp 1
    linarith
  have hp1 : (0 : ℝ) < Real.exp 1 := Real.exp_pos 1
  have hp2 : (0 : ℝ) < Real.exp 2 := Real.exp_pos 2
  have h2 : Real.exp 2 = Real.exp 1 * Real.exp 1 := by
    rw [← Real.exp_add]; norm_num
  have hs1 : softmaxProb (scale_logits 1 [0, 1]) 1 =
      Real.exp 1 / (1 + Real.exp 1) := by
    simp [softmaxProb, scale_logits, Real.exp_zero]
  have hs2 : softmaxProb (scale_logits 2 [0, 1]) 1 =
      Real.exp 2 / (1 + Real.exp 2) := by
    simp [softmaxProb, scale_logits, Real.exp_zero]
  constructor
  · rw [hs1, hs2, div_lt_div_iff₀ (by linarith) (by linarith)]
    nlinarith
  · rw [hs1, div_lt_div_iff₀ (by norm_num) (by linarith)]
    linarith

/-- Claim C8: the positional table satisfies
`table[p, 2i] = sin(p / 10000^(2i/E))` and
`table[p, 2i+1] = cos(p / 10000^(2i/E))` for every position `p` and pair
index `i` (the source builds the arguments as `p * exp(-(2i) log(10000)/E)`,
which equals `p / 10000^(2i/E)`).  The embedded table is a pure function of
the embedding size and the indices, so repeated constructions with the same
arguments agree definitionally, matching the fixed non-trainable buffer. -/
theorem pos_encoding_matches_spec (E p i : ℕ) :
    pos_encoding E p (2 * i) =
      Real.sin ((p : ℝ) / (10000 : ℝ) ^ (((2 * i : ℕ) : ℝ) / (E : ℝ))) ∧
    pos_encoding E p (2 * i + 1) =
      Real.cos ((p : ℝ) / (10000 : ℝ) ^ (((2 * i : ℕ) : ℝ) / (E : ℝ))) := by
  have harg : (p : ℝ) * div_term E i =
      (p : ℝ) / (10000 : ℝ) ^ (((2 * i : ℕ) : ℝ) / (E : ℝ)) := by
    rw [div_term, Real.rpow_def_of_pos (by norm_num),
      div_eq_mul_inv (p : ℝ), ← Real.exp_neg]
    congr 1
    ring_nf
  have heven : (2 * i) % 2 = 0 := by omega
  have hodd : ¬ ((2 * i + 1) % 2 = 0) := by omega
  have hhalf : 2 * i / 2 = i := by omega
  have hhalf2 : (2 * i + 1) / 2 = i := by omega
  constructor
  · rw [pos_encoding, if_pos heven, hhalf, harg]
  · rw [pos_encoding, if_neg hodd, hhalf2, harg]

/-- Length of an indexed map. -/
theorem idxMap_length {α β : Type} (f : ℕ → α → β) (l : List α) :
    ∀ n : ℕ, (idxMap f n l).length = l.length := by
  induction l with
  | nil => intro n; rfl
  | cons a as ih => intro n; simp [idxMap, ih]

/-- Entry of an indexed map: the element at index `k` is `f` applied to the
shifted index and the original element. -/
theorem idxMap_getD {α β : Type} (f : ℕ → α → β) (l : List α) :
    ∀ (n k : ℕ) (d : β) (d0 : α), k < l.length →
      (idxMap f n l).getD k d = f (n + k) (l.getD k d0) := by
  induction l with
  | nil => intro n k d d0 h; simp at h
  | cons a as ih =>
    intro n k d d0 h
    cases k with
    | zero => simp [idxMap]
    | succ k =>
      simp only [idxMap, List.getD_cons_succ]
      rw [ih (n + 1) k d d0 (by simpa using h)]
      congr 1
      omega

/-- Entry of a replicated list. -/
theorem replicate_getD {α : Type} (a d : α) :
    ∀ (n k : ℕ), k < n → (List.replicate n a).getD k d = a := by
  intro n
  induction n with
  | zero => intro k h; omega
  | succ n ih =>
    intro k h
    cases k with
    | zero => simp [List.replicate_succ]
    | succ k =>
      simp only [List.replicate_succ, List.getD_cons_succ]
      exact ih k (by omega)

/-- Entry of a mapped list, for indices inside the list. -/
theorem map_getD {α β : Type} (f : α → β) (l : List α) :
    ∀ (k : ℕ) (d : β) (d0 : α), k < l.length →
      (l.map f).getD k d = f (l.getD k d0) := by
  induction l with
  | nil => intro k d d0 h; simp at h
  | cons a as ih =>
    intro k d d0 h
    cases k with
    | zero => simp
    | succ k =>
      simp only [List.map_cons, List.getD_cons_succ]
      exact ih k d d0 (by simpa using h)

/-- A kept-or-zeroed ones entry is zero exactly above the diagonal. -/
theorem tril_ones_entry_eq (i j : ℕ) :
    decide ((if j ≤ i then (1 : ℤ) else 0) = 0) = decide (i < j) := by
  by_cases h : j ≤ i
  · have hn : ¬ i < j := by omega
    simp [h, hn]
  · have hy : i < j := by omega
    simp [h, hy]

/-- Claim C6: for an input batch `x` of shape `(batch, seq_len)`,
`_make_mask` returns a causal mask with `batch * n_heads` identical slices
(one per attention head and batch element), whose entry `(k, i, j)` marks
the position pair as forbidden exactly when `j > i`.  Hence, given the
attention contract that a `true` mask entry forbids attending, no position
may attend to a strictly later position. -/
theorem make_mask_causal_spec (pad n_heads : ℕ) (x : List (List ℕ)) (k i j : ℕ)
    (hk : k < x.length * n_heads)
    (hi : i < (x.headD []).length) (hj : j < (x.headD []).length) :
    (make_mask pad n_heads x).1.length = x.length * n_heads ∧
    (make_mask pad n_heads x).1.getD k [] = (make_mask pad n_heads x).1.getD 0 [] ∧
    entry3 (make_mask pad n_heads x).1 k i j = decide (i < j) := by
  have hmask : (make_mask pad n_heads x).1 =
      List.replicate (x.length * n_heads)
        (bool_eq_zero (tril (ones2 (x.headD []).length (x.headD []).length))) := by
    simp [make_mask, make_causal_mask, ones3, List.map_replicate]
  set L := (x.headD []).length with hL
  have hlen_tril : (tril (ones2 L L)).length = L := by
    simp [tril, ones2, idxMap_length]
  have hrow : (tril (ones2 L L)).getD i [] =
      idxMap (fun j v => if j ≤ i then v else 0) 0 (List.replicate L (1 : ℤ)) := by
    rw [tril, ones2,
      idxMap_getD _ _ 0 i [] (List.replicate L (1 : ℤ)) (by simpa using hi),
      replicate_getD _ _ _ _ hi, Nat.zero_add]
  refine ⟨?_, ?_, ?_⟩
  · rw [hmask, List.length_replicate]
  · rw [hmask, replicate_getD _ _ _ _ hk, replicate_getD _ _ _ _ (by omega)]
  · rw [entry3, hmask, replicate_getD _ _ _ _ hk, bool_eq_zero,
      map_getD _ _ i [] [] (by rw [hlen_tril]; exact hi), hrow,
      map_getD _ _ j false 0
        (by rw [idxMap_length, List.length_replicate]; exact hj),
      idxMap_getD _ _ 0 j 0 1 (by simpa using hj),
      replicate_getD _ _ _ _ hj, Nat.zero_add]
    exact tril_ones_entry_eq i j

/-- Claim C6 witness: the causal-mask theorem applied to the concrete batch
`[[5, 6, 7], [8, 9, 0]]` (shape `(2, 3)`) with two attention heads, at
slice 3 and position pair `(1, 2)`. -/
theorem make_mask_causal_spec_witness :
    (make_mask 0 2 [[5, 6, 7], [8, 9, 0]]).1.length =
      [[5, 6, 7], [8, 9, 0]].length * 2 ∧
    (make_mask 0 2 [[5, 6, 7], [8, 9, 0]]).1.getD 3 [] =
      (make_mask 0 2 [[5, 6, 7], [8, 9, 0]]).1.getD 0 [] ∧
    entry3 (make_mask 0 2 [[5, 6, 7], [8, 9, 0]]).1 3 1 2 = decide (1 < 2) :=
  make_mask_causal_spec 0 2 [[5, 6, 7], [8, 9, 0]] 3 1 2
    (by norm_num) (by norm_num) (by norm_num)

/-- The checkpoint decision never unbinds the checkpoint: if it was bound
before an epoch, it is bound after it. -/
theorem epoch_update_best_isSome (re : ℕ → List ℚ → List ℚ × ℚ × ℚ)
    (epoch : ℕ) (st : TrainLoopState) (h : st.best.isSome = true) :
    (epoch_update re epoch st).best.isSome = true := by
  simp only [epoch_update]
  split
  · simp
  · exact h

/-- After epoch 1 the checkpoint is always bound: the decision condition
`epoch == 1 or ...` holds. -/
theorem epoch_update_best_one (re : ℕ → List ℚ → List ℚ × ℚ × ℚ)
    (st : TrainLoopState) :
    (epoch_update re 1 st).best.isSome = true := by
  simp [epoch_update]

/-- The epoch loop preserves boundness of the checkpoint. -/
theorem train_go_best_isSome (re : ℕ → List ℚ → List ℚ × ℚ × ℚ)
    (es : List ℚ → Bool) :
    ∀ (k epoch : ℕ) (st : TrainLoopState), st.best.isSome = true →
      (train_go re es k epoch st).best.isSome = true := by
  intro k
  induction k with
  | zero => intro epoch st h; simpa [train_go] using h
  | succ k ih =>
    intro epoch st h
    simp only [train_go]
    split
    · exact epoch_update_best_isSome re epoch st h
    · exact ih (epoch + 1) _ (epoch_update_best_isSome re epoch st h)

/-- Claim C4 (amended): whenever at least one epoch runs (`n_epochs ≥ 1`),
the checkpoint restoration at FINALIZE cannot fail — `train` returns
successfully for every epoch collaborator and every early-stopping
predicate, because epoch 1 always binds the checkpoint and the loop keeps
it bound.  The guard the original claim attributes to `train` does not
exist: at `n_epochs = 0` the source references the unbound name
`best_checkpoint` (see the counterexample theorem). -/
theorem train_finalize_ok (re : ℕ → List ℚ → List ℚ × ℚ × ℚ)
    (es : List ℚ → Bool) (n : ℕ) (p0 : List ℚ) (hn : 1 ≤ n) :
    ∃ out, train re es n p0 = Except.ok out := by
  obtain ⟨k, rfl⟩ : ∃ k, n = k + 1 := ⟨n - 1, by omega⟩
  have hsome : (train_go re es (k + 1) 1 ⟨p0, [], [], none⟩).best.isSome = true := by
    simp only [train_go]
    split
    · exact epoch_update_best_one re _
    · exact train_go_best_isSome re es k 2 _ (epoch_update_best_one re _)
  simp only [train]
  cases hb : (train_go re es (k + 1) 1 ⟨p0, [], [], none⟩).best with
  | none => rw [hb] at hsome; simp at hsome
  | some c => exact ⟨_, rfl⟩

/-- Claim C4 counterexample: `train` does not guard the no-completed-epoch
case.  At `n_epochs = 0` the epoch loop never runs and FINALIZE references
the unbound Python name `best_checkpoint`, raising a `NameError` (modelled
as `Except.error`) instead of requiring at least one completed epoch. -/
theorem train_zero_epochs_error :
    train epoch_run_const no_early_stop 0 [] =
      Except.error "NameError: name best_checkpoint is not defined" := rfl

/-- Claim C4 witness: the amended FINALIZE theorem applied at the concrete
input `n_epochs = 1` with the concrete collaborators. -/
theorem train_finalize_ok_witness :
    ∃ out, train epoch_run_const no_early_stop 1 [] = Except.ok out :=
  train_finalize_ok epoch_run_const no_early_stop 1 [] (by norm_num)

/-- Claim C1 (code bug evidence): the checkpoint decision at line 206
compares the epoch validation loss against
`min(val_losses.values())` AFTER the current epoch has been inserted into
`val_losses`, so the strict comparison can never hold and the checkpoint
set at epoch 1 is never replaced.  Concretely, with validation losses
2 (epoch 1) and 1 (epoch 2), after epoch 2 the retained checkpoint still
holds epoch 1 with loss 2, while the minimum of the history is 1; the
model returned at FINALIZE carries the epoch-1 parameters `[1]`, not the
parameters `[2]` of the minimum-loss epoch, contradicting the claimed
invariant. -/
theorem train_best_checkpoint_stuck :
    (train_go epoch_run_const no_early_stop 2 1 ⟨[], [], [], none⟩).best =
      some ⟨[1], 2, 1⟩ ∧
    list_min
        (train_go epoch_run_const no_early_stop 2 1 ⟨[], [], [], none⟩).val_losses =
      1 ∧
    train epoch_run_const no_early_stop 2 [] =
      Except.ok ([1], [1, 2], [2, 1]) := by
  have h1 : train_go epoch_run_const no_early_stop 2 1 ⟨[], [], [], none⟩ =
      ⟨[2], [1, 2], [2, 1], some ⟨[1], 2, 1⟩⟩ := by decide
  refine ⟨?_, ?_, ?_⟩
  · rw [h1]
  · rw [h1]; decide
  · simp only [train, h1]

/-- Two prediction lists that agree on every position whose target is not
`pad` produce the same filtered target/prediction pairs. -/
theorem kept_pairs_eq (pad : ℕ) :
    ∀ (ts : List ℕ) (p1 p2 : List (List ℝ)),
      p1.length = ts.length → p2.length = ts.length →
      (∀ i, i < ts.length → ts.getD i pad ≠ pad → p1.getD i [] = p2.getD i []) →
      (ts.zip p1).filter (fun pt => pt.1 != pad) =
        (ts.zip p2).filter (fun pt => pt.1 != pad) := by
  intro ts
  induction ts with
  | nil => intro p1 p2 h1 h2 h3; simp
  | cons t ts ih =>
    intro p1 p2 h1 h2 h3
    cases p1 with
    | nil => simp at h1
    | cons a as =>
      cases p2 with
      | nil => simp at h2
      | cons b bs =>
        have h1t : as.length = ts.length := by simpa using h1
        have h2t : bs.length = ts.length := by simpa using h2
        have h3t : ∀ i, i < ts.length → ts.getD i pad ≠ pad →
            as.getD i [] = bs.getD i [] := by
          intro i hi hne
          have := h3 (i + 1) (by simpa using Nat.succ_lt_succ hi)
            (by simpa using hne)
          simpa using this
        by_cases hpad : t = pad
        · subst hpad
          simp only [List.zip_cons_cons, List.filter_cons, bne_self_eq_false]
          exact ih as bs h1t h2t h3t
        · have hab : a = b := by
            have := h3 0 (by simp) (by simpa using hpad)
            simpa using this
          subst hab
          simp only [List.zip_cons_cons, List.filter_cons]
          rw [ih as bs h1t h2t h3t]

/-- Claim C5: the cross-entropy loss used by `train` ignores every
position whose target token equals `PAD` — predictions may change
arbitrarily at `PAD`-target positions without changing the loss — and a
batch whose target sequence consists entirely of `PAD` contributes zero
loss (no position survives the masking, so the summed contribution is
zero). -/
theorem masked_ce_loss_spec (pad : ℕ) (ts1 ts2 : List ℕ)
    (p1 p2 preds : List (List ℝ)) :
    (p1.length = ts1.length → p2.length = ts1.length →
      (∀ i, i < ts1.length → ts1.getD i pad ≠ pad → p1.getD i [] = p2.getD i []) →
      masked_ce_loss pad p1 ts1 = masked_ce_loss pad p2 ts1) ∧
    ((∀ t ∈ ts2, t = pad) → masked_ce_loss pad preds ts2 = 0) := by
  constructor
  · intro h1 h2 h3
    unfold masked_ce_loss
    rw [kept_pairs_eq pad ts1 p1 p2 h1 h2 h3]
  · intro hall
    have hnil : (ts2.zip preds).filter (fun pt => pt.1 != pad) = [] := by
      rw [List.filter_eq_nil_iff]
      intro pt hpt
      have hmem := List.of_mem_zip hpt
      have : pt.1 = pad := hall pt.1 hmem.1
      simp [this]
    unfold masked_ce_loss
    rw [hnil]
    simp

/-- Claim C5 witness: the loss-masking theorem applied at concrete inputs
with `PAD = 0`: changing the prediction row at the single `PAD`-target
position leaves the loss unchanged, and an all-`PAD` target list gives
loss 0. -/
theorem masked_ce_loss_spec_witness :
    masked_ce_loss 0 [[1, 2], [3, 4]] [0, 1] =
      masked_ce_loss 0 [[9, 9], [3, 4]] [0, 1] ∧
    masked_ce_loss 0 [[1, 2], [3, 4]] [0, 0] = 0 := by
  have h := masked_ce_loss_spec 0 [0, 1] [0, 0] [[1, 2], [3, 4]] [[9, 9], [3, 4]]
    [[1, 2], [3, 4]]
  refine ⟨h.1 (by simp) (by simp) ?_, h.2 (by simp)⟩
  intro i hi hne
  have hi2 : i < 2 := by simpa using hi
  interval_cases i
  · simp at hne
  · rfl

/-- Claim C9: `generate` is deterministic in its seed.  The embedding
threads the global torch RNG state explicitly: `generate` starts with
`manual_seed(random_seed)`, which replaces the ambient RNG state, so two
invocations with the same model parameters, prompt, output length,
temperature and seed — but arbitrary, possibly different, ambient RNG
states `rng0` and `rng1` — return the identical output token sequence
(and, the detokenizer and formatter being deterministic external
functions, the identical string). -/
theorem generate_deterministic_in_seed (fwd : List ℝ → List ℕ → List ℝ)
    (sample : List ℝ → ℕ → ℕ × ℕ) (prompt : List ℕ) (n : ℕ) (t : ℝ)
    (seed rng0 rng1 : ℕ) (model : ModelState) :
    generate fwd sample prompt n t seed rng0 model =
      generate fwd sample prompt n t seed rng1 model := rfl

/-- Claim C10: `generate` never mutates the model parameters.  In the
embedding the only write `generate` performs on the model object is
`model.eval()` (clearing the training flag); the forward passes of the
sampling loop only read the parameters, so the parameter values after the
call equal the parameter values before it, for every forward function,
sampler, prompt, output length, temperature and seed. -/
theorem generate_preserves_params (fwd : List ℝ → List ℕ → List ℝ)
    (sample : List ℝ → ℕ → ℕ × ℕ) (prompt : List ℕ) (n : ℕ) (t : ℝ)
    (seed rng0 : ℕ) (model : ModelState) :
    (generate fwd sample prompt n t seed rng0 model).2.params = model.params := rfl
